import Mathlib

/-!
# Verification of the fire-timelapse acquisition pipeline

Shallow embedding of the data-acquisition core of `src/fire_timelapse.py`:
the chunk planner (`generate_date_chunks`), the request executor
(`fetch_single_chunk`, retries, backoff, cache) and the fetch orchestrator
(`fetch_fire_data`, aggregation, deduplication).

Modelling conventions:
* Calendar dates are integers (day numbers in the proleptic Gregorian
  calendar).  Python's `datetime` ± `timedelta(days=k)` is integer
  addition, `(a - b).days` is integer subtraction; `civilToDays` maps a
  calendar date `(y, m, d)` to its day number.
* The Python `while` loops of the planner are embedded with an explicit
  fuel argument; the top-level entry points pass `(end - start).toNat + 1`
  fuel, which is sufficient whenever the step size is ≥ 1 (the program
  always uses `chunk_size = 10`, `max_total_days = 365`).
-/

namespace FireTimelapse

/-- Day number of the Gregorian date `(y, m, d)` relative to 1970-01-01
(standard civil-from-days algorithm, floor division throughout).  Mirrors
Python `datetime` day arithmetic. -/
def civilToDays (y m d : Int) : Int :=
  let y' : Int := if m ≤ 2 then y - 1 else y
  let era : Int := Int.fdiv y' 400
  let yoe : Int := y' - era * 400
  let mp : Int := if 2 < m then m - 3 else m + 9
  let doy : Int := Int.fdiv (153 * mp + 2) 5 + d - 1
  let doe : Int := yoe * 365 + Int.fdiv yoe 4 - Int.fdiv yoe 100 + doy
  era * 146097 + doe - 719468

/-- A chunk as yielded by `generate_date_chunks`:
`(chunk_start, chunk_end, day_range)`. -/
abbrev Chunk := Int × Int × Int

/-- The inner `while current <= end_date` loop of `generate_date_chunks`
(source lines 211–218), with explicit fuel.  Each iteration yields
`(current, chunk_end, day_range)` with
`chunk_end = min(current + chunk_size - 1, end)` and
`day_range = (chunk_end - current) + 1`, then advances to `chunk_end + 1`. -/
def chunkLoopAux (cs : Int) : Nat → Int → Int → List Chunk
  | 0, _, _ => []
  | fuel + 1, current, e =>
    if current ≤ e then
      (current, min (current + cs - 1) e, min (current + cs - 1) e - current + 1)
        :: chunkLoopAux cs fuel (min (current + cs - 1) e + 1) e
    else []

/-- The unbatched chunk walk over `[s, e]` (fuel instantiated so that the
loop always runs to completion when `1 ≤ cs`). -/
def chunkLoop (s e cs : Int) : List Chunk :=
  chunkLoopAux cs ((e - s).toNat + 1) s e

/-- The outer `while batch_start <= end_date` batching loop of
`generate_date_chunks` (source lines 202–208), with explicit fuel.  Each
batch spans `min(batch_start + max_total_days - 1, end)` and is planned by
the unbatched walk (the recursive call passes `max_total_days = None`). -/
def batchLoopAux (cs m : Int) : Nat → Int → Int → List Chunk
  | 0, _, _ => []
  | fuel + 1, bs, e =>
    if bs ≤ e then
      chunkLoop bs (min (bs + m - 1) e) cs
        ++ batchLoopAux cs m fuel (min (bs + m - 1) e + 1) e
    else []

/-- Model of `generate_date_chunks(start_date, end_date, chunk_size, max_total_days)`
(source lines 187–218).  The batch branch is taken when `max_total_days`
is truthy (a non-`None`, non-zero integer) and
`(end_date - start_date).days > max_total_days`. -/
def generate_date_chunks (s e : Int) (cs : Int) (mtd : Option Int) : List Chunk :=
  match mtd with
  | some m => if m ≠ 0 ∧ e - s > m then batchLoopAux cs m ((e - s).toNat + 1) s e
              else chunkLoop s e cs
  | none => chunkLoop s e cs

/-- The list of consecutive calendar days from `a` to `b` inclusive. -/
def intRange (a b : Int) : List Int :=
  (List.range (b + 1 - a).toNat).map (fun (i : Nat) => a + (i : Int))

/-- All calendar days covered by a chunk list, in yield order. -/
def bindDays (l : List Chunk) : List Int :=
  l.flatMap (fun c => intRange c.1 c.2.1)

theorem intRange_eq_nil {a b : Int} (h : b < a) : intRange a b = [] := by
  unfold intRange
  have : (b + 1 - a).toNat = 0 := by omega
  simp [this]

theorem intRange_cons {a b : Int} (h : a ≤ b) : intRange a b = a :: intRange (a + 1) b := by
  unfold intRange
  have h1 : (b + 1 - a).toNat = (b + 1 - (a + 1)).toNat + 1 := by omega
  rw [h1, List.range_succ_eq_map, List.map_cons, List.map_map]
  congr 1
  · simp
  · refine List.map_congr_left ?_
    intro i _
    show a + ((i + 1 : Nat) : Int) = a + 1 + (i : Int)
    omega

theorem intRange_ne_nil {a b : Int} (h : a ≤ b) : intRange a b ≠ [] := by
  rw [intRange_cons h]
  exact List.cons_ne_nil _ _

theorem intRange_split : ∀ (n : Nat) (a mid b : Int), (mid + 1 - a).toNat ≤ n →
    a ≤ mid + 1 → mid ≤ b → intRange a b = intRange a mid ++ intRange (mid + 1) b := by
  intro n
  induction n with
  | zero =>
    intro a mid b hn ha hm
    have hA : a = mid + 1 := by omega
    subst hA
    rw [show intRange (mid + 1) mid = [] from intRange_eq_nil (by omega)]
    simp
  | succ k ih =>
    intro a mid b hn ha hm
    by_cases hma : a ≤ mid
    · rw [intRange_cons (by omega), intRange_cons hma,
        ih (a + 1) mid b (by omega) (by omega) hm]
      simp
    · have hA : a = mid + 1 := by omega
      subst hA
      rw [show intRange (mid + 1) mid = [] from intRange_eq_nil (by omega)]
      simp

theorem intRange_nodup (a b : Int) : (intRange a b).Nodup := by
  unfold intRange
  refine List.Nodup.map ?_ (List.nodup_range _)
  intro i j h
  simp only at h
  omega

/-! ## The spec-side batch decomposition (for the refinement claim)

Modelled from the spec's words: split the range into consecutive batches
each spanning at most the batch limit, plan each batch independently with
batching disabled, and concatenate the results in chronological order. -/

/-- The greedy batch split: consecutive batches of `m` days each, the last
clamped to `e`. -/
def batchesAux (m : Int) : Nat → Int → Int → List (Int × Int)
  | 0, _, _ => []
  | fuel + 1, bs, e =>
    if bs ≤ e then
      (bs, min (bs + m - 1) e) :: batchesAux m fuel (min (bs + m - 1) e + 1) e
    else []

/-- Split `[s, e]` into consecutive batches each of span at most `m` days. -/
def splitIntoBatches (s e m : Int) : List (Int × Int) :=
  batchesAux m ((e - s).toNat + 1) s e

/-- Plan each batch independently with batching disabled and concatenate in
chronological order (the decomposition the spec describes). -/
def batchThenPlan (s e cs m : Int) : List Chunk :=
  (splitIntoBatches s e m).flatMap (fun b => generate_date_chunks b.1 b.2 cs none)

/-! ## Planner lemmas -/

theorem bindDays_nil : bindDays [] = [] := rfl

theorem bindDays_cons (t : Chunk) (l : List Chunk) :
    bindDays (t :: l) = intRange t.1 t.2.1 ++ bindDays l := rfl

theorem bindDays_append (l1 l2 : List Chunk) :
    bindDays (l1 ++ l2) = bindDays l1 ++ bindDays l2 := by
  simp [bindDays]

theorem chunkLoopAux_cover {cs : Int} (hcs : 1 ≤ cs) :
    ∀ (fuel : Nat) (c e : Int), (e + 1 - c).toNat ≤ fuel →
      bindDays (chunkLoopAux cs fuel c e) = intRange c e := by
  intro fuel
  induction fuel with
  | zero =>
    intro c e hf
    rw [chunkLoopAux, intRange_eq_nil (by omega)]
    rfl
  | succ k ih =>
    intro c e hf
    rw [chunkLoopAux]
    by_cases hce : c ≤ e
    · rw [if_pos hce]
      have hmin1 : c ≤ min (c + cs - 1) e := by omega
      have hmin2 : min (c + cs - 1) e ≤ e := by omega
      rw [bindDays_cons, ih (min (c + cs - 1) e + 1) e (by omega)]
      exact (intRange_split ((min (c + cs - 1) e + 1 - c).toNat)
        c (min (c + cs - 1) e) e (le_refl _) (by omega) hmin2).symm
    · rw [if_neg hce, intRange_eq_nil (by omega)]
      rfl

theorem chunkLoop_cover {cs : Int} (hcs : 1 ≤ cs) (s e : Int) :
    bindDays (chunkLoop s e cs) = intRange s e :=
  chunkLoopAux_cover hcs _ s e (by omega)

theorem chunkLoopAux_mem {cs : Int} (hcs : 1 ≤ cs) :
    ∀ (fuel : Nat) (c e : Int) (t : Chunk), t ∈ chunkLoopAux cs fuel c e →
      c ≤ t.1 ∧ t.1 ≤ t.2.1 ∧ t.2.1 ≤ e ∧ t.2.2 = t.2.1 - t.1 + 1 ∧ t.2.2 ≤ cs := by
  intro fuel
  induction fuel with
  | zero => intro c e t ht; simp [chunkLoopAux] at ht
  | succ k ih =>
    intro c e t ht
    rw [chunkLoopAux] at ht
    by_cases hce : c ≤ e
    · rw [if_pos hce] at ht
      rcases List.mem_cons.mp ht with h | h
      · subst h
        refine ⟨?_, ?_, ?_, ?_, ?_⟩ <;> (dsimp only; try omega)
      · have := ih _ _ t h
        exact ⟨by omega, this.2.1, this.2.2.1, this.2.2.2.1, this.2.2.2.2⟩
    · rw [if_neg hce] at ht
      simp at ht

theorem chunkLoopAux_starts {cs : Int} (hcs : 1 ≤ cs) :
    ∀ (fuel : Nat) (c e : Int),
      (chunkLoopAux cs fuel c e).Pairwise (fun a b : Chunk => a.1 < b.1) := by
  intro fuel
  induction fuel with
  | zero => intro c e; rw [chunkLoopAux]; exact List.Pairwise.nil
  | succ k ih =>
    intro c e
    rw [chunkLoopAux]
    by_cases hce : c ≤ e
    · rw [if_pos hce]
      refine List.Pairwise.cons ?_ (ih _ _)
      intro t ht
      have := chunkLoopAux_mem hcs _ _ _ t ht
      show c < t.1
      omega
    · rw [if_neg hce]; exact List.Pairwise.nil

theorem batchLoopAux_eq (cs m : Int) :
    ∀ (fuel : Nat) (bs e : Int),
      batchLoopAux cs m fuel bs e =
        (batchesAux m fuel bs e).flatMap (fun b => chunkLoop b.1 b.2 cs) := by
  intro fuel
  induction fuel with
  | zero => intro bs e; rfl
  | succ k ih =>
    intro bs e
    rw [batchLoopAux, batchesAux]
    by_cases hbe : bs ≤ e
    · rw [if_pos hbe, if_pos hbe, List.flatMap_cons, ih]
    · rw [if_neg hbe, if_neg hbe]; rfl

theorem batchLoopAux_cover {cs m : Int} (hcs : 1 ≤ cs) (hm : 1 ≤ m) :
    ∀ (fuel : Nat) (bs e : Int), (e + 1 - bs).toNat ≤ fuel →
      bindDays (batchLoopAux cs m fuel bs e) = intRange bs e := by
  intro fuel
  induction fuel with
  | zero =>
    intro bs e hf
    rw [batchLoopAux, intRange_eq_nil (by omega)]
    rfl
  | succ k ih =>
    intro bs e hf
    rw [batchLoopAux]
    by_cases hbe : bs ≤ e
    · rw [if_pos hbe]
      have hmin1 : bs ≤ min (bs + m - 1) e := by omega
      have hmin2 : min (bs + m - 1) e ≤ e := by omega
      rw [bindDays_append, chunkLoop_cover hcs, ih (min (bs + m - 1) e + 1) e (by omega)]
      exact (intRange_split ((min (bs + m - 1) e + 1 - bs).toNat)
        bs (min (bs + m - 1) e) e (le_refl _) (by omega) hmin2).symm
    · rw [if_neg hbe, intRange_eq_nil (by omega)]
      rfl

theorem batchLoopAux_mem {cs m : Int} (hcs : 1 ≤ cs) (hm : 1 ≤ m) :
    ∀ (fuel : Nat) (bs e : Int) (t : Chunk), t ∈ batchLoopAux cs m fuel bs e →
      bs ≤ t.1 ∧ t.1 ≤ t.2.1 ∧ t.2.1 ≤ e ∧ t.2.2 = t.2.1 - t.1 + 1 ∧ t.2.2 ≤ cs := by
  intro fuel
  induction fuel with
  | zero => intro bs e t ht; simp [batchLoopAux] at ht
  | succ k ih =>
    intro bs e t ht
    rw [batchLoopAux] at ht
    by_cases hbe : bs ≤ e
    · rw [if_pos hbe] at ht
      rcases List.mem_append.mp ht with h | h
      · have := chunkLoopAux_mem hcs _ _ _ t h
        omega
      · have := ih _ _ t h
        omega
    · rw [if_neg hbe] at ht
      simp at ht

theorem batchLoopAux_starts {cs m : Int} (hcs : 1 ≤ cs) (hm : 1 ≤ m) :
    ∀ (fuel : Nat) (bs e : Int),
      (batchLoopAux cs m fuel bs e).Pairwise (fun a b : Chunk => a.1 < b.1) := by
  intro fuel
  induction fuel with
  | zero => intro bs e; rw [batchLoopAux]; exact List.Pairwise.nil
  | succ k ih =>
    intro bs e
    rw [batchLoopAux]
    by_cases hbe : bs ≤ e
    · rw [if_pos hbe]
      refine List.pairwise_append.mpr ⟨chunkLoopAux_starts hcs _ _ _, ih _ _, ?_⟩
      intro a ha b hb
      have h1 := chunkLoopAux_mem hcs _ _ _ a ha
      have h2 := batchLoopAux_mem hcs hm _ _ _ b hb
      show a.1 < b.1
      omega
    · rw [if_neg hbe]; exact List.Pairwise.nil

theorem generate_date_chunks_cover {s e cs : Int} {mtd : Option Int}
    (hcs : 1 ≤ cs) (hm : ∀ m, mtd = some m → 1 ≤ m) :
    bindDays (generate_date_chunks s e cs mtd) = intRange s e := by
  match mtd with
  | none => exact chunkLoop_cover hcs s e
  | some m =>
    rw [generate_date_chunks]
    by_cases hb : m ≠ 0 ∧ e - s > m
    · rw [if_pos hb]
      exact batchLoopAux_cover hcs (hm m rfl) _ s e (by omega)
    · rw [if_neg hb]
      exact chunkLoop_cover hcs s e

theorem generate_date_chunks_mem {s e cs : Int} {mtd : Option Int}
    (hcs : 1 ≤ cs) (hm : ∀ m, mtd = some m → 1 ≤ m)
    (t : Chunk) (ht : t ∈ generate_date_chunks s e cs mtd) :
    s ≤ t.1 ∧ t.1 ≤ t.2.1 ∧ t.2.1 ≤ e ∧ t.2.2 = t.2.1 - t.1 + 1 ∧ t.2.2 ≤ cs := by
  match mtd with
  | none => exact chunkLoopAux_mem hcs _ s e t ht
  | some m =>
    rw [generate_date_chunks] at ht
    by_cases hb : m ≠ 0 ∧ e - s > m
    · rw [if_pos hb] at ht
      exact batchLoopAux_mem hcs (hm m rfl) _ s e t ht
    · rw [if_neg hb] at ht
      exact chunkLoopAux_mem hcs _ s e t ht

theorem generate_date_chunks_starts {s e cs : Int} {mtd : Option Int}
    (hcs : 1 ≤ cs) (hm : ∀ m, mtd = some m → 1 ≤ m) :
    (generate_date_chunks s e cs mtd).Pairwise (fun a b : Chunk => a.1 < b.1) := by
  match mtd with
  | none => exact chunkLoopAux_starts hcs _ s e
  | some m =>
    rw [generate_date_chunks]
    by_cases hb : m ≠ 0 ∧ e - s > m
    · rw [if_pos hb]
      exact batchLoopAux_starts hcs (hm m rfl) _ s e
    · rw [if_neg hb]
      exact chunkLoopAux_starts hcs _ s e

/-! ## Claim theorems for the chunk planner -/

/-- Claim C1: for every date range with start ≤ end (with a positive chunk
size, and a positive batch limit whenever batching is enabled — the program
always uses 10 and 365), the chunks produced by `generate_date_chunks`,
concatenated in chronological order, cover exactly the calendar days of the
original range — no day is missed and no day appears in two chunks — every
chunk's recorded span equals `(end − start) + 1` days and is at most the
per-request chunk limit, and at least one chunk is produced. -/
theorem generate_date_chunks_partition (s e cs : Int) (mtd : Option Int)
    (hse : s ≤ e) (hcs : 1 ≤ cs) (hm : ∀ m, mtd = some m → 1 ≤ m) :
    generate_date_chunks s e cs mtd ≠ [] ∧
    bindDays (generate_date_chunks s e cs mtd) = intRange s e ∧
    (bindDays (generate_date_chunks s e cs mtd)).Nodup ∧
    ∀ t ∈ generate_date_chunks s e cs mtd,
      t.2.2 = t.2.1 - t.1 + 1 ∧ 1 ≤ t.2.2 ∧ t.2.2 ≤ cs := by
  have hcover := @generate_date_chunks_cover s e cs mtd hcs hm
  refine ⟨?_, hcover, hcover ▸ intRange_nodup s e, ?_⟩
  · intro hnil
    rw [hnil, bindDays_nil] at hcover
    exact intRange_ne_nil hse hcover.symm
  · intro t ht
    have h := generate_date_chunks_mem hcs hm t ht
    exact ⟨h.2.2.2.1, by omega, h.2.2.2.2⟩

/-- Witness for C1: the partition property evaluated on the concrete range
`[0, 25]` with the program's parameters (chunk size 10, batch limit 365). -/
theorem generate_date_chunks_partition_witness :
    ((0 : Int) ≤ 25 ∧ (1 : Int) ≤ 10) ∧
    (generate_date_chunks 0 25 10 (some 365) ≠ [] ∧
     bindDays (generate_date_chunks 0 25 10 (some 365)) = intRange 0 25 ∧
     (bindDays (generate_date_chunks 0 25 10 (some 365))).Nodup ∧
     ∀ t ∈ generate_date_chunks 0 25 10 (some 365),
       t.2.2 = t.2.1 - t.1 + 1 ∧ 1 ≤ t.2.2 ∧ t.2.2 ≤ 10) :=
  ⟨⟨by decide, by decide⟩,
    generate_date_chunks_partition 0 25 10 (some 365) (by decide) (by decide)
      (by intro m h; injection h with h2; omega)⟩

/-- Counterexample to claim C4 as stated: planning 2023-08-01 through
2023-08-31 with a chunk limit of 10 days does not produce the three chunks
[08-01..08-10], [08-11..08-20], [08-21..08-31] with spans 10, 10, 11: the
produced sequence differs from the claimed one, the claimed 11-day third
chunk [08-21..08-31] is not among the produced chunks, and indeed every
produced chunk spans at most 10 days — the walk never emits a chunk longer
than the limit. -/
theorem aug2023_chunks_ne_spec_example :
    generate_date_chunks (civilToDays 2023 8 1) (civilToDays 2023 8 31) 10 none ≠
      [(civilToDays 2023 8 1, civilToDays 2023 8 10, 10),
       (civilToDays 2023 8 11, civilToDays 2023 8 20, 10),
       (civilToDays 2023 8 21, civilToDays 2023 8 31, 11)] ∧
    (civilToDays 2023 8 21, civilToDays 2023 8 31, 11) ∉
      generate_date_chunks (civilToDays 2023 8 1) (civilToDays 2023 8 31) 10 none ∧
    ∀ t ∈ generate_date_chunks (civilToDays 2023 8 1) (civilToDays 2023 8 31) 10 none,
      t.2.2 ≤ 10 := by
  refine ⟨by decide, by decide, by decide⟩

/-- Claim C4 (amended): planning 2023-08-01 through 2023-08-31 with a chunk
limit of 10 days produces exactly the four chunks [08-01..08-10],
[08-11..08-20], [08-21..08-30], [08-31..08-31] with span lengths 10, 10, 10
and 1 day, covering the 31-day span exactly; the plan is the same under the
orchestrator's yearly batching limit of 365 days (the 31-day span is below
it). -/
theorem aug2023_chunks_eq :
    generate_date_chunks (civilToDays 2023 8 1) (civilToDays 2023 8 31) 10 none =
      [(civilToDays 2023 8 1, civilToDays 2023 8 10, 10),
       (civilToDays 2023 8 11, civilToDays 2023 8 20, 10),
       (civilToDays 2023 8 21, civilToDays 2023 8 30, 10),
       (civilToDays 2023 8 31, civilToDays 2023 8 31, 1)] ∧
    generate_date_chunks (civilToDays 2023 8 1) (civilToDays 2023 8 31) 10 (some 365) =
      [(civilToDays 2023 8 1, civilToDays 2023 8 10, 10),
       (civilToDays 2023 8 11, civilToDays 2023 8 20, 10),
       (civilToDays 2023 8 21, civilToDays 2023 8 30, 10),
       (civilToDays 2023 8 31, civilToDays 2023 8 31, 1)] ∧
    bindDays (generate_date_chunks (civilToDays 2023 8 1) (civilToDays 2023 8 31) 10 none) =
      intRange (civilToDays 2023 8 1) (civilToDays 2023 8 31) := by
  refine ⟨by decide, by decide, by decide⟩

/-- Counterexample to claim C6 as stated: the range 2023-01-01 through
2024-01-01 spans 366 days, which exceeds the batching limit of 365, yet
`generate_date_chunks` does not batch it (the code batches only when
`(end − start).days > 365`, i.e. span ≥ 367) and its output differs from
the batch-then-plan decomposition. -/
theorem batching_threshold_mismatch :
    civilToDays 2024 1 1 - civilToDays 2023 1 1 + 1 > 365 ∧
    generate_date_chunks (civilToDays 2023 1 1) (civilToDays 2024 1 1) 10 (some 365) ≠
      batchThenPlan (civilToDays 2023 1 1) (civilToDays 2024 1 1) 10 365 := by
  constructor
  · decide
  · decide

/-- Claim C6 (amended): for every range whose difference `end − start` in
days strictly exceeds the batching limit (span ≥ limit + 2 — the condition
the code actually tests), `generate_date_chunks` with batching enabled
yields exactly the chunk sequence obtained by splitting the range into
consecutive batches each of span at most the batch limit, planning each
batch independently with batching disabled, and concatenating the results
in chronological order. -/
theorem batching_is_pure_decomposition (s e cs m : Int)
    (hm : 1 ≤ m) (hspan : e - s > m) :
    generate_date_chunks s e cs (some m) = batchThenPlan s e cs m := by
  rw [generate_date_chunks, if_pos ⟨by omega, hspan⟩, batchLoopAux_eq]
  rfl

/-- Witness for the amended C6 at the concrete range 2023-01-01 through
2024-06-30 with the program's parameters. -/
theorem batching_is_pure_decomposition_witness :
    ((1 : Int) ≤ 365 ∧ civilToDays 2024 6 30 - civilToDays 2023 1 1 > 365) ∧
    generate_date_chunks (civilToDays 2023 1 1) (civilToDays 2024 6 30) 10 (some 365) =
      batchThenPlan (civilToDays 2023 1 1) (civilToDays 2024 6 30) 10 365 :=
  ⟨⟨by decide, by decide⟩,
    batching_is_pure_decomposition (civilToDays 2023 1 1) (civilToDays 2024 6 30) 10 365
      (by decide) (by decide)⟩

/-! ## Request executor (`fetch_single_chunk`)

The network is an oracle `api : Nat → ApiResponse` giving each attempt's
outcome.  Response bodies follow the provider interface (§6 of the spec,
which the executor's parsing relies on): either text whose stripped
lower-case form is the literal `"no data"` sentinel, or CSV text that
`pd.read_csv` parses to a header and data rows.  The MD5 cache keying of
`get_cache_path` is assumed collision-free, so the cache is keyed by the
request identity itself. -/

/-- A data row of a parsed CSV table. -/
abbrev Row := List String

/-- A parsed table (header plus data rows); pandas `df.empty` corresponds to
`rows = []`. -/
structure Df where
  header : List String
  rows : List Row
deriving DecidableEq

/-- A successful response body as the executor observes it. -/
inductive Body where
  | noData
  | csv (header : List String) (rows : List Row)
deriving DecidableEq

/-- One attempt's outcome: a `requests.exceptions.RequestException` carrying
`str(e)` (timeouts, connection errors, and non-2xx statuses raised by
`raise_for_status`), or a successful body. -/
inductive ApiResponse where
  | failure (msg : String)
  | ok (body : Body)
deriving DecidableEq

/-- Implements `"403" in str(e) or "Forbidden" in str(e)` (source line 293). -/
def isRateLimited (msg : String) : Bool :=
  decide ("403".toList <:+: msg.toList) || decide ("Forbidden".toList <:+: msg.toList)

/-- The backoff delay chosen in the `except` branch (source lines 292–296):
`5 * 2**attempt` seconds for rate-limit errors, `2**attempt` otherwise. -/
def backoffDelay (msg : String) (attempt : Nat) : Nat :=
  if isRateLimited msg then 5 * 2 ^ attempt else 2 ^ attempt

/-- One wait performed by the executor, in program order.  The global
rate-limit wait's duration depends on the wall clock and is recorded without
one; the retry pacing sleep (`time.sleep(1 + attempt)`, line 268) and the
backoff sleep (line 297) carry their duration in seconds. -/
inductive SleepEvent where
  | rateLimit
  | retryPacing (secs : Nat)
  | backoff (secs : Nat)
deriving DecidableEq

/-- A cache file's content: the literal `"No data"` sentinel or a stored CSV
table. -/
inductive CacheEntry where
  | sentinel
  | table (header : List String) (rows : List Row)
deriving DecidableEq

/-- The fully-resolved request identity determining the URL (and hence the
cache file): map key, bounding box, day count, chunk start date; the base
URL and data source are constants. -/
structure ReqKey where
  mapKey : String
  bbox : String
  dayRange : Int
  chunkStart : Int
deriving DecidableEq

/-- The cache directory as an association list from request identity to file
content; `store` shadows older entries, as overwriting the file does. -/
abbrev Cache := List (ReqKey × CacheEntry)

/-- Read the cache file for `key`, if present. -/
def lookup : Cache → ReqKey → Option CacheEntry
  | [], _ => none
  | (k, en) :: rest, key => if k = key then some en else lookup rest key

/-- Write (or overwrite) the cache file for `k`. -/
def store (c : Cache) (k : ReqKey) (en : CacheEntry) : Cache :=
  (k, en) :: c

/-- The 4-tuple returned by `fetch_single_chunk`:
`(df, from_cache, api_called, error)`. -/
structure ChunkResult where
  df : Option Df
  from_cache : Bool
  api_called : Bool
  error : Option String
deriving DecidableEq

/-- A chunk execution together with its side effects: the resulting cache
state, the sleep trace, and the number of network calls made. -/
structure ChunkRun where
  res : ChunkResult
  cache : Cache
  sleeps : List SleepEvent
  calls : Nat
deriving DecidableEq

/-- Constant `max_retries = 3` (source line 255). -/
def max_retries : Nat := 3

/-- Builds the string `f"Failed after {max_retries} attempts: {str(e)}"` (source line 301). -/
def failMsg (msg : String) : String :=
  "Failed after " ++ toString max_retries ++ " attempts: " ++ msg

/-- The waits performed before the request of a given attempt: the global
rate-limit wait (lines 260–264), then `time.sleep(1 + attempt)` on retries
(lines 267–268). -/
def preSleeps (attempt : Nat) : List SleepEvent :=
  SleepEvent.rateLimit ::
    (if 0 < attempt then [SleepEvent.retryPacing (1 + attempt)] else [])

/-- The `for attempt in range(max_retries)` loop of `fetch_single_chunk`
(source lines 256–301), entered with `attempt = 0` and
`fuel = max_retries`; `fuel = 0` is the (unreachable) fall-through of the
loop.  On success: a sentinel body yields the empty outcome and persists the
sentinel when caching; a body with rows yields them and persists them when
caching; a body parsing to an empty table yields the empty outcome and
persists nothing.  On failure: retry with a class-differentiated backoff
while attempts remain, otherwise return the `error` value. -/
def apiLoop (api : Nat → ApiResponse) (use_cache : Bool) (key : ReqKey) :
    Nat → Nat → Cache → ChunkRun
  | 0, _, cache => ⟨⟨none, false, false, none⟩, cache, [], 0⟩
  | fuel + 1, attempt, cache =>
    match api attempt with
    | .failure msg =>
      if attempt < max_retries - 1 then
        ⟨(apiLoop api use_cache key fuel (attempt + 1) cache).res,
         (apiLoop api use_cache key fuel (attempt + 1) cache).cache,
         preSleeps attempt ++ SleepEvent.backoff (backoffDelay msg attempt)
           :: (apiLoop api use_cache key fuel (attempt + 1) cache).sleeps,
         (apiLoop api use_cache key fuel (attempt + 1) cache).calls + 1⟩
      else
        ⟨⟨none, false, true, some (failMsg msg)⟩, cache, preSleeps attempt, 1⟩
    | .ok .noData =>
      ⟨⟨none, false, true, none⟩,
       (if use_cache then store cache key .sentinel else cache),
       preSleeps attempt, 1⟩
    | .ok (.csv hdr rows) =>
      if rows ≠ [] then
        ⟨⟨some ⟨hdr, rows⟩, false, true, none⟩,
         (if use_cache then store cache key (.table hdr rows) else cache),
         preSleeps attempt, 1⟩
      else
        ⟨⟨none, false, true, none⟩, cache, preSleeps attempt, 1⟩

/-- Model of `fetch_single_chunk` (source lines 235–301): consult the cache first
when enabled — a hit returns immediately with no network call — otherwise
run the retry loop.  Failure is always a value: every path returns a
`ChunkRun`. -/
def fetch_single_chunk (api : Nat → ApiResponse) (cache : Cache) (key : ReqKey)
    (use_cache : Bool) : ChunkRun :=
  match (if use_cache then lookup cache key else none) with
  | some .sentinel => ⟨⟨none, true, false, none⟩, cache, [], 0⟩
  | some (.table hdr rows) => ⟨⟨some ⟨hdr, rows⟩, true, false, none⟩, cache, [], 0⟩
  | none => apiLoop api use_cache key max_retries 0 cache

/-- The backoff waits of a sleep trace, in order. -/
def backoffs (l : List SleepEvent) : List Nat :=
  l.filterMap (fun ev => match ev with
    | SleepEvent.backoff d => some d
    | _ => none)

/-! ## Fetch orchestrator (`fetch_fire_data`) -/

/-- Implements `pandas.DataFrame.drop_duplicates`: keep the first occurrence of each
full row (row identity is full-column equality). -/
def dropDupAux : List Row → List Row → List Row
  | _, [] => []
  | seen, r :: rest =>
    if r ∈ seen then dropDupAux seen rest else r :: dropDupAux (r :: seen) rest

/-- Drop exact-duplicate rows, keeping first occurrences. -/
def drop_duplicates (rows : List Row) : List Row :=
  dropDupAux [] rows

/-- The request identity of one chunk's URL
`{base}/{map_key}/{source}/{bbox}/{day_range}/{chunk_start}`. -/
def mkKey (map_key bbox : String) (ch : Chunk) : ReqKey :=
  ⟨map_key, bbox, ch.2.2, ch.1⟩

/-- The strictly sequential per-chunk loop of `fetch_fire_data` (source
lines 343–355), threading the cache directory state. -/
def runChunks (api : ReqKey → Nat → ApiResponse) (map_key bbox : String)
    (use_cache : Bool) : List Chunk → Cache → List ChunkResult × Cache
  | [], cache => ([], cache)
  | ch :: rest, cache =>
    ((fetch_single_chunk (api (mkKey map_key bbox ch)) cache (mkKey map_key bbox ch)
        use_cache).res ::
      (runChunks api map_key bbox use_cache rest
        (fetch_single_chunk (api (mkKey map_key bbox ch)) cache (mkKey map_key bbox ch)
          use_cache).cache).1,
     (runChunks api map_key bbox use_cache rest
        (fetch_single_chunk (api (mkKey map_key bbox ch)) cache (mkKey map_key bbox ch)
          use_cache).cache).2)

/-- The aggregated result of one `fetch_fire_data` invocation. -/
structure FetchOut where
  df : Df
  cache_hits : Nat
  api_calls : Nat
  errors : List (Int × Int × String)
  cache : Cache
deriving DecidableEq

/-- Models `pd.concat(all_data, ignore_index=True)` followed by
`drop_duplicates()` when anything was accumulated, and the explicitly empty
frame `pd.DataFrame()` otherwise (source lines 357–365). -/
def aggregate (all_data : List Df) : Df :=
  match all_data with
  | [] => Df.mk [] []
  | d :: ds => Df.mk d.header (drop_duplicates ((d :: ds).flatMap (fun x => x.rows)))

/-- Model of `fetch_fire_data` (source lines 304–377): plan chunks with the 10-day
limit and yearly (365-day) batching, process them sequentially, collect the
non-`None` frames, record errors without aborting, then concatenate and drop
exact-duplicate rows; if nothing was accumulated return the explicitly empty
frame `pd.DataFrame()`. -/
def fetch_fire_data (api : ReqKey → Nat → ApiResponse) (map_key bbox : String)
    (s e : Int) (use_cache : Bool) (cache0 : Cache) : FetchOut :=
  let chunks := generate_date_chunks s e 10 (some 365)
  let t := runChunks api map_key bbox use_cache chunks cache0
  ⟨aggregate (t.1.filterMap (fun r => r.df)),
   (t.1.filter (fun r => r.from_cache)).length,
   (t.1.filter (fun r => r.api_called)).length,
   (chunks.zip t.1).filterMap (fun p => p.2.error.map (fun msg => (p.1.1, p.1.2.1, msg))),
   t.2⟩

/-! ## Claim theorems for the request executor -/

/-- Claim C2: `fetch_single_chunk` returns an error outcome only after
exactly 3 attempts have all failed; the error value carries the attempt
count and the last failure's description (the model is total — failure is
always returned as a value, never thrown). -/
theorem fetch_single_chunk_error_only_after_retries (api : Nat → ApiResponse)
    (cache : Cache) (key : ReqKey) (use_cache : Bool) (s : String)
    (h : (fetch_single_chunk api cache key use_cache).res.error = some s) :
    (∃ m0 m1 m2, api 0 = .failure m0 ∧ api 1 = .failure m1 ∧ api 2 = .failure m2 ∧
      s = failMsg m2) ∧
    (fetch_single_chunk api cache key use_cache).calls = 3 := by
  unfold fetch_single_chunk at h ⊢
  cases hc : (if use_cache then lookup cache key else none) with
  | some en =>
    rw [hc] at h
    cases en <;> simp at h
  | none =>
    rw [hc] at h
    cases h0 : api 0 with
    | ok b =>
      cases b with
      | noData => simp [apiLoop, max_retries, h0] at h
      | csv hdr rows =>
        by_cases hr : rows = [] <;> simp [apiLoop, max_retries, h0, hr] at h
    | failure m0 =>
      cases h1 : api 1 with
      | ok b =>
        cases b with
        | noData => simp [apiLoop, max_retries, h0, h1] at h
        | csv hdr rows =>
          by_cases hr : rows = [] <;> simp [apiLoop, max_retries, h0, h1, hr] at h
      | failure m1 =>
        cases h2 : api 2 with
        | ok b =>
          cases b with
          | noData => simp [apiLoop, max_retries, h0, h1, h2] at h
          | csv hdr rows =>
            by_cases hr : rows = [] <;> simp [apiLoop, max_retries, h0, h1, h2, hr] at h
        | failure m2 =>
          refine ⟨⟨m0, m1, m2, rfl, rfl, rfl, ?_⟩, ?_⟩
          · simp [apiLoop, max_retries, h0, h1, h2] at h
            exact h.symm
          · simp [apiLoop, max_retries, h0, h1, h2]

/-- Witness for C2: three failing attempts on a cold cache produce the
error value carrying the attempt count and the last failure. -/
theorem fetch_single_chunk_error_only_after_retries_witness :
    (fetch_single_chunk (fun _ => ApiResponse.failure "timeout") []
        ⟨"key", "bbox", 10, 0⟩ true).res.error = some (failMsg "timeout") ∧
    (∃ m0 m1 m2, (fun _ => ApiResponse.failure "timeout") 0 = ApiResponse.failure m0 ∧
      (fun _ => ApiResponse.failure "timeout") 1 = ApiResponse.failure m1 ∧
      (fun _ => ApiResponse.failure "timeout") 2 = ApiResponse.failure m2 ∧
      failMsg "timeout" = failMsg m2) ∧
    (fetch_single_chunk (fun _ => ApiResponse.failure "timeout") []
        ⟨"key", "bbox", 10, 0⟩ true).calls = 3 :=
  ⟨by decide,
   (fetch_single_chunk_error_only_after_retries (fun _ => ApiResponse.failure "timeout")
      [] ⟨"key", "bbox", 10, 0⟩ true (failMsg "timeout") (by decide)).1,
   (fetch_single_chunk_error_only_after_retries (fun _ => ApiResponse.failure "timeout")
      [] ⟨"key", "bbox", 10, 0⟩ true (failMsg "timeout") (by decide)).2⟩

/-- Claim C5: on a cold cache, when every attempt fails the executor's
backoff sleeps are exactly `backoffDelay m 0` then `backoffDelay m 1` —
5 s then 10 s (doubling) when the failures are recognised as rate limiting
(HTTP 403 / Forbidden), 1 s then 2 s (doubling) for every other transport
failure — and three failed attempts terminate with the error outcome
reporting 3 attempts. -/
theorem fetch_single_chunk_backoff_schedule (api : Nat → ApiResponse) (cache : Cache)
    (key : ReqKey) (use_cache : Bool) (m0 m1 m2 : String)
    (h0 : api 0 = .failure m0) (h1 : api 1 = .failure m1) (h2 : api 2 = .failure m2)
    (hmiss : (if use_cache then lookup cache key else none) = none) :
    backoffs (fetch_single_chunk api cache key use_cache).sleeps =
      [backoffDelay m0 0, backoffDelay m1 1] ∧
    (isRateLimited m0 = true → isRateLimited m1 = true →
      backoffs (fetch_single_chunk api cache key use_cache).sleeps = [5, 10]) ∧
    (isRateLimited m0 = false → isRateLimited m1 = false →
      backoffs (fetch_single_chunk api cache key use_cache).sleeps = [1, 2]) ∧
    (fetch_single_chunk api cache key use_cache).res.error = some (failMsg m2) ∧
    (fetch_single_chunk api cache key use_cache).calls = 3 := by
  have base : backoffs (fetch_single_chunk api cache key use_cache).sleeps =
      [backoffDelay m0 0, backoffDelay m1 1] := by
    unfold fetch_single_chunk
    rw [hmiss]
    simp [apiLoop, max_retries, h0, h1, h2, backoffs, preSleeps]
  refine ⟨base, ?_, ?_, ?_, ?_⟩
  · intro r0 r1
    rw [base]
    simp [backoffDelay, r0, r1]
  · intro r0 r1
    rw [base]
    simp [backoffDelay, r0, r1]
  · unfold fetch_single_chunk
    rw [hmiss]
    simp [apiLoop, max_retries, h0, h1, h2]
  · unfold fetch_single_chunk
    rw [hmiss]
    simp [apiLoop, max_retries, h0, h1, h2]

/-- Witness for C5: a chunk whose three attempts all return HTTP 403 sleeps
5 s then 10 s of backoff and terminates with the error outcome after 3
attempts; with a plain timeout the backoff is 1 s then 2 s. -/
theorem fetch_single_chunk_backoff_schedule_witness :
    backoffs (fetch_single_chunk (fun _ => ApiResponse.failure "403 Forbidden") []
        ⟨"key", "bbox", 10, 0⟩ false).sleeps = [5, 10] ∧
    (fetch_single_chunk (fun _ => ApiResponse.failure "403 Forbidden") []
        ⟨"key", "bbox", 10, 0⟩ false).res.error = some (failMsg "403 Forbidden") ∧
    (fetch_single_chunk (fun _ => ApiResponse.failure "403 Forbidden") []
        ⟨"key", "bbox", 10, 0⟩ false).calls = 3 ∧
    backoffs (fetch_single_chunk (fun _ => ApiResponse.failure "timeout") []
        ⟨"key", "bbox", 10, 0⟩ false).sleeps = [1, 2] :=
  ⟨(fetch_single_chunk_backoff_schedule (fun _ => ApiResponse.failure "403 Forbidden")
      [] ⟨"key", "bbox", 10, 0⟩ false _ _ _ rfl rfl rfl rfl).2.1 (by decide) (by decide),
   (fetch_single_chunk_backoff_schedule (fun _ => ApiResponse.failure "403 Forbidden")
      [] ⟨"key", "bbox", 10, 0⟩ false _ _ _ rfl rfl rfl rfl).2.2.2.1,
   (fetch_single_chunk_backoff_schedule (fun _ => ApiResponse.failure "403 Forbidden")
      [] ⟨"key", "bbox", 10, 0⟩ false _ _ _ rfl rfl rfl rfl).2.2.2.2,
   (fetch_single_chunk_backoff_schedule (fun _ => ApiResponse.failure "timeout")
      [] ⟨"key", "bbox", 10, 0⟩ false _ _ _ rfl rfl rfl rfl).2.2.1 (by decide) (by decide)⟩

/-- The retry loop only ever leaves the cache unchanged or adds one entry
for its own key, and that entry is the sentinel or a non-empty table. -/
theorem apiLoop_cache_shape (api : Nat → ApiResponse) (uc : Bool) (key : ReqKey) :
    ∀ (fuel attempt : Nat) (cache : Cache),
      (apiLoop api uc key fuel attempt cache).cache = cache ∨
      ∃ en, (apiLoop api uc key fuel attempt cache).cache = store cache key en ∧
        (en = CacheEntry.sentinel ∨ ∃ h2 r2, r2 ≠ [] ∧ en = CacheEntry.table h2 r2) := by
  intro fuel
  induction fuel with
  | zero => intro attempt cache; left; rfl
  | succ k ih =>
    intro attempt cache
    cases hA : api attempt with
    | failure msg =>
      by_cases hlt : attempt < max_retries - 1
      · have : (apiLoop api uc key (k + 1) attempt cache).cache =
            (apiLoop api uc key k (attempt + 1) cache).cache := by
          simp [apiLoop, hA, hlt]
        rw [this]
        exact ih (attempt + 1) cache
      · left
        simp [apiLoop, hA, hlt]
    | ok b =>
      cases b with
      | noData =>
        cases uc with
        | false => left; simp [apiLoop, hA]
        | true =>
          right
          exact ⟨CacheEntry.sentinel, by simp [apiLoop, hA], Or.inl rfl⟩
      | csv hdr rows =>
        by_cases hr : rows = []
        · left; simp [apiLoop, hA, hr]
        · cases uc with
          | false => left; simp [apiLoop, hA, hr]
          | true =>
            right
            exact ⟨CacheEntry.table hdr rows, by simp [apiLoop, hA, hr],
              Or.inr ⟨hdr, rows, hr, rfl⟩⟩

/-- Any single-chunk run leaves the cache unchanged or adds exactly one
entry — the sentinel or a non-empty table — for its own key. -/
theorem fetch_single_chunk_cache_shape (api : Nat → ApiResponse) (cache : Cache)
    (key : ReqKey) (uc : Bool) :
    (fetch_single_chunk api cache key uc).cache = cache ∨
    ∃ en, (fetch_single_chunk api cache key uc).cache = store cache key en ∧
      (en = CacheEntry.sentinel ∨ ∃ h2 r2, r2 ≠ [] ∧ en = CacheEntry.table h2 r2) := by
  unfold fetch_single_chunk
  cases hc : (if uc then lookup cache key else none) with
  | some en => cases en <;> (left; rfl)
  | none => exact apiLoop_cache_shape api uc key max_retries 0 cache

/-- Claim C10: a successful first attempt whose body parses to a table with
zero data rows (and is not the no-data sentinel) makes `fetch_single_chunk`
return the empty outcome with the cache left exactly as it was — even when
caching is enabled — and in general a run only ever persists the literal
sentinel or a non-empty table. -/
theorem fetch_single_chunk_empty_table_not_cached (api : Nat → ApiResponse)
    (cache : Cache) (key : ReqKey) (use_cache : Bool) (hdr : List String)
    (hmiss : (if use_cache then lookup cache key else none) = none)
    (h0 : api 0 = .ok (.csv hdr [])) :
    fetch_single_chunk api cache key use_cache =
      ⟨⟨none, false, true, none⟩, cache, preSleeps 0, 1⟩ ∧
    ∀ (api2 : Nat → ApiResponse) (uc2 : Bool),
      (fetch_single_chunk api2 cache key uc2).cache = cache ∨
      ∃ en, (fetch_single_chunk api2 cache key uc2).cache = store cache key en ∧
        (en = CacheEntry.sentinel ∨ ∃ h2 r2, r2 ≠ [] ∧ en = CacheEntry.table h2 r2) := by
  constructor
  · unfold fetch_single_chunk
    rw [hmiss]
    simp [apiLoop, max_retries, h0]
  · intro api2 uc2
    exact fetch_single_chunk_cache_shape api2 cache key uc2

/-- Witness for C10: a header-only CSV body on a cold cache with caching
enabled yields the empty outcome and writes nothing. -/
theorem fetch_single_chunk_empty_table_not_cached_witness :
    fetch_single_chunk (fun _ => ApiResponse.ok (Body.csv ["longitude", "latitude"] []))
        [] ⟨"key", "bbox", 10, 0⟩ true =
      ⟨⟨none, false, true, none⟩, [], preSleeps 0, 1⟩ ∧
    (fetch_single_chunk (fun _ => ApiResponse.ok (Body.csv ["longitude", "latitude"] []))
        [] ⟨"key", "bbox", 10, 0⟩ true).cache = [] :=
  ⟨(fetch_single_chunk_empty_table_not_cached
      (fun _ => ApiResponse.ok (Body.csv ["longitude", "latitude"] []))
      [] ⟨"key", "bbox", 10, 0⟩ true ["longitude", "latitude"] (by decide) rfl).1,
   by decide⟩

/-! ## Claim theorems for the fetch orchestrator -/

/-- Helper `dropDupAux` returns a duplicate-free list avoiding everything already
seen. -/
theorem dropDupAux_nodup : ∀ (l seen : List Row),
    (dropDupAux seen l).Nodup ∧ ∀ r ∈ dropDupAux seen l, r ∉ seen := by
  intro l
  induction l with
  | nil =>
    intro seen
    exact ⟨List.Pairwise.nil, by intro r hr; simp [dropDupAux] at hr⟩
  | cons a rest ih =>
    intro seen
    rw [dropDupAux]
    by_cases ha : a ∈ seen
    · rw [if_pos ha]
      exact ih seen
    · rw [if_neg ha]
      refine ⟨List.nodup_cons.mpr ⟨?_, (ih (a :: seen)).1⟩, ?_⟩
      · intro hmem
        exact (ih (a :: seen)).2 a hmem (List.mem_cons_self a seen)
      · intro r hr
        rcases List.mem_cons.mp hr with hra | hr2
        · rw [hra]; exact ha
        · intro hrs
          exact (ih (a :: seen)).2 r hr2 (List.mem_cons_of_mem a hrs)

/-- The deduplicated row list never contains two identical rows. -/
theorem drop_duplicates_nodup (rows : List Row) : (drop_duplicates rows).Nodup :=
  (dropDupAux_nodup rows []).1

/-- Every aggregated frame is duplicate-free. -/
theorem aggregate_nodup (all_data : List Df) : (aggregate all_data).rows.Nodup := by
  cases all_data with
  | nil => exact List.Pairwise.nil
  | cons d ds => exact drop_duplicates_nodup _

/-- Claim C7: the aggregated table returned by `fetch_fire_data` contains no
two rows that are identical across all columns — for every oracle, so in
particular when chunks covering overlapping date spans each return
overlapping rows. -/
theorem fetch_fire_data_no_duplicate_rows (api : ReqKey → Nat → ApiResponse)
    (map_key bbox : String) (s e : Int) (use_cache : Bool) (cache0 : Cache) :
    (fetch_fire_data api map_key bbox s e use_cache cache0).df.rows.Nodup := by
  show (aggregate _).rows.Nodup
  exact aggregate_nodup _

/-- Claim C8: if no chunk yields rows, `fetch_fire_data` returns the
explicitly empty table (the model is total: an all-empty acquisition is a
value, not an exception). -/
theorem fetch_fire_data_empty_is_ok (api : ReqKey → Nat → ApiResponse)
    (map_key bbox : String) (s e : Int) (use_cache : Bool) (cache0 : Cache)
    (h : ∀ r ∈ (runChunks api map_key bbox use_cache
        (generate_date_chunks s e 10 (some 365)) cache0).1, r.df = none) :
    (fetch_fire_data api map_key bbox s e use_cache cache0).df = Df.mk [] [] := by
  have hnil : (runChunks api map_key bbox use_cache
      (generate_date_chunks s e 10 (some 365)) cache0).1.filterMap (fun r => r.df) = [] := by
    rw [List.filterMap_eq_nil_iff]
    exact h
  show aggregate ((runChunks api map_key bbox use_cache
      (generate_date_chunks s e 10 (some 365)) cache0).1.filterMap (fun r => r.df)) = Df.mk [] []
  rw [hnil]
  rfl

/-- Witness for C8: a run whose single chunk returns the no-data sentinel
produces the explicitly empty table. -/
theorem fetch_fire_data_empty_is_ok_witness :
    (∀ r ∈ (runChunks (fun _ _ => ApiResponse.ok Body.noData) "key" "bbox" false
        (generate_date_chunks 0 0 10 (some 365)) []).1, r.df = none) ∧
    (fetch_fire_data (fun _ _ => ApiResponse.ok Body.noData) "key" "bbox" 0 0 false []).df =
      Df.mk [] [] :=
  ⟨by decide,
   fetch_fire_data_empty_is_ok (fun _ _ => ApiResponse.ok Body.noData) "key" "bbox" 0 0
     false [] (by decide)⟩

/-! ## Repeated invocation with caching (claim C3) -/

theorem lookup_store_self (c : Cache) (k : ReqKey) (en : CacheEntry) :
    lookup (store c k en) k = some en := by
  simp [store, lookup]

theorem lookup_store_ne (c : Cache) (k k' : ReqKey) (en : CacheEntry) (h : k' ≠ k) :
    lookup (store c k en) k' = lookup c k' := by
  simp only [store, lookup]
  rw [if_neg (fun hh => h hh.symm)]

/-- The table a cache entry yields when read back (`pd.read_csv` of the
stored file, or `None` for the sentinel). -/
def dfOfEntry : CacheEntry → Option Df
  | .sentinel => none
  | .table hdr rows => some ⟨hdr, rows⟩

/-- The first response of the retry loop that is not a transport failure,
starting at `attempt` with `fuel` iterations remaining (the loop retries a
failure only while `attempt < max_retries - 1`, mirroring `apiLoop`). -/
def firstSuccess (api : Nat → ApiResponse) : Nat → Nat → Option Body
  | 0, _ => none
  | fuel + 1, attempt =>
    match api attempt with
    | .failure _ =>
      if attempt < max_retries - 1 then firstSuccess api fuel (attempt + 1) else none
    | .ok b => some b

/-- The cache entry a successful body is persisted as: the sentinel for the
no-data body, the table itself when non-empty, nothing for an empty parse. -/
def entryOfBody : Body → Option CacheEntry
  | .noData => some .sentinel
  | .csv hdr rows => if rows = [] then none else some (.table hdr rows)

/-- The cache entry governing a chunk with key `k` run against cache `c`
with caching enabled: the existing entry on a hit, otherwise the entry the
retry loop's first non-failing response would persist (none when all three
attempts fail, or when the first success parses to an empty table). -/
def resolvedEntry (api : Nat → ApiResponse) (c : Cache) (k : ReqKey) : Option CacheEntry :=
  match lookup c k with
  | some en => some en
  | none => (firstSuccess api max_retries 0).bind entryOfBody

/-- The frame contributed by a chunk whose key resolves to a cache entry. -/
def dfOfKey (api : Nat → ApiResponse) (c : Cache) (k : ReqKey) : Option Df :=
  (resolvedEntry api c k).bind dfOfEntry

theorem resolvedEntry_congr (api : Nat → ApiResponse) {c c' : Cache} {k : ReqKey}
    (h : lookup c' k = lookup c k) :
    resolvedEntry api c' k = resolvedEntry api c k := by
  rw [resolvedEntry, resolvedEntry, h]

/-- A cache hit returns the stored table (or the empty outcome for the
sentinel) with no network call and no cache change. -/
theorem fetch_single_chunk_hit (api : Nat → ApiResponse) (c : Cache) (k : ReqKey)
    (en : CacheEntry) (h : lookup c k = some en) :
    fetch_single_chunk api c k true =
      ⟨⟨dfOfEntry en, true, false, none⟩, c, [], 0⟩ := by
  cases en <;> simp [fetch_single_chunk, h, dfOfEntry]

/-- When the retry loop's first non-failing response persists an entry
`en`, the loop (with caching on) contributes `dfOfEntry en`, reports no
error, stores `en` under its key, and touches no other key — whatever
failed attempts precede the success. -/
theorem apiLoop_resolved (api : Nat → ApiResponse) (k : ReqKey) :
    ∀ (fuel attempt : Nat) (c : Cache) (en : CacheEntry),
      (firstSuccess api fuel attempt).bind entryOfBody = some en →
      (apiLoop api true k fuel attempt c).res.df = dfOfEntry en ∧
      (apiLoop api true k fuel attempt c).res.error = none ∧
      lookup (apiLoop api true k fuel attempt c).cache k = some en ∧
      ∀ k', k' ≠ k → lookup (apiLoop api true k fuel attempt c).cache k' = lookup c k' := by
  intro fuel
  induction fuel with
  | zero =>
    intro attempt c en hres
    exact absurd hres (by simp [firstSuccess])
  | succ f ih =>
    intro attempt c en hres
    rw [firstSuccess] at hres
    cases hA : api attempt with
    | failure msg =>
      rw [hA] at hres
      have hres2 : (if attempt < max_retries - 1 then firstSuccess api f (attempt + 1)
          else none).bind entryOfBody = some en := hres
      by_cases hlt : attempt < max_retries - 1
      · rw [if_pos hlt] at hres2
        have hrec := ih (attempt + 1) c en hres2
        have e1 : (apiLoop api true k (f + 1) attempt c).res =
            (apiLoop api true k f (attempt + 1) c).res := by
          simp [apiLoop, hA, hlt]
        have e2 : (apiLoop api true k (f + 1) attempt c).cache =
            (apiLoop api true k f (attempt + 1) c).cache := by
          simp [apiLoop, hA, hlt]
        rw [e1, e2]
        exact hrec
      · rw [if_neg hlt] at hres2
        exact absurd hres2 (by simp)
    | ok b =>
      rw [hA] at hres
      have hres2 : entryOfBody b = some en := hres
      cases b with
      | noData =>
        have hen : CacheEntry.sentinel = en := by
          injection hres2
        subst hen
        have heq : apiLoop api true k (f + 1) attempt c =
            ⟨⟨none, false, true, none⟩, store c k CacheEntry.sentinel,
             preSleeps attempt, 1⟩ := by
          simp [apiLoop, hA]
        rw [heq]
        exact ⟨rfl, rfl, lookup_store_self c k _,
          fun k' hk' => lookup_store_ne c k k' _ hk'⟩
      | csv hdr rows =>
        have hres3 : (if rows = [] then (none : Option CacheEntry)
            else some (CacheEntry.table hdr rows)) = some en := hres2
        by_cases hr : rows = []
        · rw [if_pos hr] at hres3
          exact absurd hres3 (by simp)
        · rw [if_neg hr] at hres3
          injection hres3 with hres3
          subst hres3
          have heq : apiLoop api true k (f + 1) attempt c =
              ⟨⟨some ⟨hdr, rows⟩, false, true, none⟩,
               store c k (CacheEntry.table hdr rows), preSleeps attempt, 1⟩ := by
            simp [apiLoop, hA, hr]
          rw [heq]
          exact ⟨rfl, rfl, lookup_store_self c k _,
            fun k' hk' => lookup_store_ne c k k' _ hk'⟩

/-- A chunk whose key resolves to an entry `en` contributes `dfOfEntry en`,
reports no error, leaves `en` stored under its key, and touches no other
key. -/
theorem fetch_single_chunk_good (api : Nat → ApiResponse) (c : Cache) (k : ReqKey)
    (en : CacheEntry) (hres : resolvedEntry api c k = some en) :
    (fetch_single_chunk api c k true).res.df = dfOfEntry en ∧
    (fetch_single_chunk api c k true).res.error = none ∧
    lookup (fetch_single_chunk api c k true).cache k = some en ∧
    ∀ k', k' ≠ k → lookup (fetch_single_chunk api c k true).cache k' = lookup c k' := by
  rw [resolvedEntry] at hres
  cases hl : lookup c k with
  | some en' =>
    rw [hl] at hres
    injection hres with hres
    subst hres
    rw [fetch_single_chunk_hit api c k en' hl]
    exact ⟨rfl, rfl, hl, fun k' _ => rfl⟩
  | none =>
    rw [hl] at hres
    have hres2 : (firstSuccess api max_retries 0).bind entryOfBody = some en := hres
    have hfetch : fetch_single_chunk api c k true = apiLoop api true k max_retries 0 c := by
      unfold fetch_single_chunk
      simp [hl]
    rw [hfetch]
    exact apiLoop_resolved api k max_retries 0 c en hres2

/-- First run over a chunk list with caching on: when keys are pairwise
distinct and every key resolves to an entry, each chunk contributes the
resolved entry's table, the final cache stores the resolved entry of every
key, and all other keys are untouched. -/
theorem runChunks_good (api : ReqKey → Nat → ApiResponse) (mk2 bb : String) (c : Cache) :
    ∀ (chs : List Chunk) (c' : Cache),
      (∀ ch ∈ chs, lookup c' (mkKey mk2 bb ch) = lookup c (mkKey mk2 bb ch)) →
      (∀ ch ∈ chs, (resolvedEntry (api (mkKey mk2 bb ch)) c (mkKey mk2 bb ch)).isSome) →
      chs.Pairwise (fun a b => mkKey mk2 bb a ≠ mkKey mk2 bb b) →
      ((runChunks api mk2 bb true chs c').1.map (fun r => r.df) =
        chs.map (fun ch => dfOfKey (api (mkKey mk2 bb ch)) c (mkKey mk2 bb ch))) ∧
      (∀ ch ∈ chs, lookup (runChunks api mk2 bb true chs c').2 (mkKey mk2 bb ch) =
        resolvedEntry (api (mkKey mk2 bb ch)) c (mkKey mk2 bb ch)) ∧
      (∀ k, (∀ ch ∈ chs, k ≠ mkKey mk2 bb ch) →
        lookup (runChunks api mk2 bb true chs c').2 k = lookup c' k) := by
  intro chs
  induction chs with
  | nil =>
    intro c' hagree hgood hdist
    refine ⟨rfl, ?_, fun k _ => rfl⟩
    intro ch hch
    simp at hch
  | cons ch rest ih =>
    intro c' hagree hgood hdist
    obtain ⟨en, hen⟩ := Option.isSome_iff_exists.mp (hgood ch (List.mem_cons_self ch rest))
    have hres' : resolvedEntry (api (mkKey mk2 bb ch)) c' (mkKey mk2 bb ch) = some en := by
      rw [resolvedEntry_congr _ (hagree ch (List.mem_cons_self ch rest))]
      exact hen
    have hstep := fetch_single_chunk_good (api (mkKey mk2 bb ch)) c' (mkKey mk2 bb ch) en hres'
    have hdisthead : ∀ ch' ∈ rest, mkKey mk2 bb ch ≠ mkKey mk2 bb ch' :=
      fun ch' hch' => List.rel_of_pairwise_cons hdist hch'
    have hagree2 : ∀ ch' ∈ rest,
        lookup (fetch_single_chunk (api (mkKey mk2 bb ch)) c' (mkKey mk2 bb ch) true).cache
            (mkKey mk2 bb ch') =
          lookup c (mkKey mk2 bb ch') := by
      intro ch' hch'
      rw [hstep.2.2.2 (mkKey mk2 bb ch') (fun hh => hdisthead ch' hch' hh.symm)]
      exact hagree ch' (List.mem_cons_of_mem ch hch')
    have hrec := ih (fetch_single_chunk (api (mkKey mk2 bb ch)) c' (mkKey mk2 bb ch) true).cache
      hagree2 (fun ch' hch' => hgood ch' (List.mem_cons_of_mem ch hch'))
      (List.Pairwise.of_cons hdist)
    rw [runChunks]
    refine ⟨?_, ?_, ?_⟩
    · rw [List.map_cons, List.map_cons, hrec.1, hstep.1]
      rw [show dfOfKey (api (mkKey mk2 bb ch)) c (mkKey mk2 bb ch) = dfOfEntry en by
        rw [dfOfKey, hen]; rfl]
    · intro ch' hch'
      rcases List.mem_cons.mp hch' with hh | hh
    /- head: its key is untouched by the recursive run (distinct keys) -/
      · subst hh
        rw [hrec.2.2 (mkKey mk2 bb ch') (fun ch2 hch2 => hdisthead ch2 hch2),
          hstep.2.2.1, hen]
      · exact hrec.2.1 ch' hh
    · intro k hk
      rw [hrec.2.2 k (fun ch2 hch2 => hk ch2 (List.mem_cons_of_mem ch hch2)),
        hstep.2.2.2 k (hk ch (List.mem_cons_self ch rest))]

/-- Second run over a chunk list whose keys are all cached: every chunk is
served from cache, no network call is made, and the cache is unchanged. -/
theorem runChunks_all_hit (api : ReqKey → Nat → ApiResponse) (mk2 bb : String) :
    ∀ (chs : List Chunk) (c : Cache),
      (∀ ch ∈ chs, (lookup c (mkKey mk2 bb ch)).isSome) →
      runChunks api mk2 bb true chs c =
        (chs.map (fun ch => ChunkResult.mk
          ((lookup c (mkKey mk2 bb ch)).bind dfOfEntry) true false none), c) := by
  intro chs
  induction chs with
  | nil => intro c _; rfl
  | cons ch rest ih =>
    intro c hhit
    obtain ⟨en, hen⟩ := Option.isSome_iff_exists.mp (hhit ch (List.mem_cons_self ch rest))
    have hfetch := fetch_single_chunk_hit (api (mkKey mk2 bb ch)) c (mkKey mk2 bb ch) en hen
    rw [runChunks, hfetch]
    have hrec := ih c (fun ch' hch' => hhit ch' (List.mem_cons_of_mem ch hch'))
    rw [hrec]
    rw [List.map_cons, hen]
    rfl

/-- The chunk keys of one planning call are pairwise distinct (their start
dates strictly increase). -/
theorem chunk_keys_distinct (mk2 bb : String) (s e : Int) :
    (generate_date_chunks s e 10 (some 365)).Pairwise
      (fun a b => mkKey mk2 bb a ≠ mkKey mk2 bb b) := by
  have h := @generate_date_chunks_starts s e 10 (some 365) (by omega)
    (fun m hm => by injection hm with h2; omega)
  refine h.imp ?_
  intro a b hab hk
  have : a.1 = b.1 := congrArg ReqKey.chunkStart hk
  omega

/-- Counterexample to claim C3 as stated: a chunk whose successful response
parses to a table with zero rows is not cached, so a second identical
invocation with caching enabled performs a network call again (1, not 0). -/
theorem repeated_invocation_recalls_api :
    (fetch_fire_data (fun _ _ => ApiResponse.ok (Body.csv ["longitude"] [])) "key" "bbox"
        0 0 true []).api_calls = 1 ∧
    (fetch_fire_data (fun _ _ => ApiResponse.ok (Body.csv ["longitude"] [])) "key" "bbox"
        0 0 true
        (fetch_fire_data (fun _ _ => ApiResponse.ok (Body.csv ["longitude"] [])) "key" "bbox"
          0 0 true []).cache).api_calls ≠ 0 := by
  constructor
  · decide
  · decide

/-- Filtering a mapped list by a predicate the mapped elements all satisfy
keeps every element. -/
theorem filter_length_of_map {α : Type} (p : ChunkResult → Bool) (f : α → ChunkResult) :
    ∀ (l : List α), (∀ a, p (f a) = true) → ((l.map f).filter p).length = l.length := by
  intro l h
  induction l with
  | nil => rfl
  | cons x xs ih =>
    rw [List.map_cons, List.filter_cons_of_pos (h x), List.length_cons, ih,
      List.length_cons]

/-- Claim C3 (amended): provided every chunk of the plan resolves against
the initial cache — it is already cached, or one of its three attempts
succeeds (after any failed earlier attempts) with the no-data sentinel or a
non-empty table; excluded are only chunks that exhaust all retries or whose
first success parses to an empty table, since the executor caches neither —
invoking `fetch_fire_data` a second time with identical arguments and
caching enabled performs zero network calls, serves every chunk from the
cache, and reproduces the identical aggregated table. -/
theorem fetch_fire_data_second_run_cached (api : ReqKey → Nat → ApiResponse)
    (mk2 bb : String) (s e : Int) (cache0 : Cache)
    (hgood : ∀ ch ∈ generate_date_chunks s e 10 (some 365),
      (resolvedEntry (api (mkKey mk2 bb ch)) cache0 (mkKey mk2 bb ch)).isSome) :
    (fetch_fire_data api mk2 bb s e true
        (fetch_fire_data api mk2 bb s e true cache0).cache).api_calls = 0 ∧
    (fetch_fire_data api mk2 bb s e true
        (fetch_fire_data api mk2 bb s e true cache0).cache).cache_hits =
      (generate_date_chunks s e 10 (some 365)).length ∧
    (fetch_fire_data api mk2 bb s e true
        (fetch_fire_data api mk2 bb s e true cache0).cache).df =
      (fetch_fire_data api mk2 bb s e true cache0).df := by
  have hdist := chunk_keys_distinct mk2 bb s e
  have hrun1 := runChunks_good api mk2 bb cache0 (generate_date_chunks s e 10 (some 365))
    cache0 (fun ch _ => rfl) hgood hdist
  have hcache1 : (fetch_fire_data api mk2 bb s e true cache0).cache =
      (runChunks api mk2 bb true (generate_date_chunks s e 10 (some 365)) cache0).2 := rfl
  have hhit : ∀ ch ∈ generate_date_chunks s e 10 (some 365),
      (lookup (runChunks api mk2 bb true (generate_date_chunks s e 10 (some 365)) cache0).2
        (mkKey mk2 bb ch)).isSome := by
    intro ch hch
    rw [hrun1.2.1 ch hch]
    exact hgood ch hch
  have hrun2 := runChunks_all_hit api mk2 bb (generate_date_chunks s e 10 (some 365))
    (runChunks api mk2 bb true (generate_date_chunks s e 10 (some 365)) cache0).2 hhit
  have hcalls : ∀ c0, (fetch_fire_data api mk2 bb s e true c0).api_calls =
      ((runChunks api mk2 bb true (generate_date_chunks s e 10 (some 365)) c0).1.filter
        (fun r => r.api_called)).length := fun c0 => rfl
  have hhits : ∀ c0, (fetch_fire_data api mk2 bb s e true c0).cache_hits =
      ((runChunks api mk2 bb true (generate_date_chunks s e 10 (some 365)) c0).1.filter
        (fun r => r.from_cache)).length := fun c0 => rfl
  have hdf : ∀ c0, (fetch_fire_data api mk2 bb s e true c0).df =
      aggregate ((runChunks api mk2 bb true (generate_date_chunks s e 10 (some 365)) c0).1.filterMap
        (fun r => r.df)) := fun c0 => rfl
  refine ⟨?_, ?_, ?_⟩
  · rw [hcache1, hcalls, hrun2]
    simp
    intro a x x1 x2 hmem ha
    rw [← ha]
  · rw [hcache1, hhits, hrun2]
    exact filter_length_of_map _ _ _ (fun a => rfl)
  · rw [hcache1, hdf, hdf, hrun2]
    refine congrArg aggregate ?_
    rw [List.filterMap_map]
    have hright : (runChunks api mk2 bb true (generate_date_chunks s e 10 (some 365))
        cache0).1.filterMap (fun r => r.df) =
        (generate_date_chunks s e 10 (some 365)).filterMap
          (fun ch => dfOfKey (api (mkKey mk2 bb ch)) cache0 (mkKey mk2 bb ch)) := by
      rw [show (fun r : ChunkResult => r.df) = (id ∘ fun r : ChunkResult => r.df) from rfl,
        ← List.filterMap_map, hrun1.1, List.filterMap_map]
      rfl
    rw [hright]
    refine List.filterMap_congr ?_
    intro ch hch
    show ((lookup (runChunks api mk2 bb true (generate_date_chunks s e 10 (some 365))
        cache0).2 (mkKey mk2 bb ch)).bind dfOfEntry) =
      dfOfKey (api (mkKey mk2 bb ch)) cache0 (mkKey mk2 bb ch)
    rw [hrun1.2.1 ch hch]
    rfl

/-- Witness for the amended C3: a single-chunk run whose first attempt
fails with a timeout and whose retry returns a non-empty table still caches
the table, and the repeated invocation makes no network call, hits the
cache once, and returns the identical table. -/
theorem fetch_fire_data_second_run_cached_witness :
    (∀ ch ∈ generate_date_chunks 0 0 10 (some 365),
      (resolvedEntry ((fun _ (i : Nat) => if i = 0 then ApiResponse.failure "timeout"
          else ApiResponse.ok (Body.csv ["longitude"] [["7"]])) (mkKey "key" "bbox" ch)) []
        (mkKey "key" "bbox" ch)).isSome) ∧
    (fetch_fire_data (fun _ (i : Nat) => if i = 0 then ApiResponse.failure "timeout"
        else ApiResponse.ok (Body.csv ["longitude"] [["7"]])) "key" "bbox" 0 0 true
        (fetch_fire_data (fun _ (i : Nat) => if i = 0 then ApiResponse.failure "timeout"
          else ApiResponse.ok (Body.csv ["longitude"] [["7"]])) "key" "bbox" 0 0 true
          []).cache).api_calls = 0 ∧
    (fetch_fire_data (fun _ (i : Nat) => if i = 0 then ApiResponse.failure "timeout"
        else ApiResponse.ok (Body.csv ["longitude"] [["7"]])) "key" "bbox" 0 0 true
        (fetch_fire_data (fun _ (i : Nat) => if i = 0 then ApiResponse.failure "timeout"
          else ApiResponse.ok (Body.csv ["longitude"] [["7"]])) "key" "bbox" 0 0 true
          []).cache).cache_hits = (generate_date_chunks 0 0 10 (some 365)).length ∧
    (fetch_fire_data (fun _ (i : Nat) => if i = 0 then ApiResponse.failure "timeout"
        else ApiResponse.ok (Body.csv ["longitude"] [["7"]])) "key" "bbox" 0 0 true
        (fetch_fire_data (fun _ (i : Nat) => if i = 0 then ApiResponse.failure "timeout"
          else ApiResponse.ok (Body.csv ["longitude"] [["7"]])) "key" "bbox" 0 0 true
          []).cache).df =
      (fetch_fire_data (fun _ (i : Nat) => if i = 0 then ApiResponse.failure "timeout"
        else ApiResponse.ok (Body.csv ["longitude"] [["7"]])) "key" "bbox" 0 0 true []).df :=
  ⟨by decide,
   fetch_fire_data_second_run_cached (fun _ (i : Nat) => if i = 0 then
       ApiResponse.failure "timeout" else ApiResponse.ok (Body.csv ["longitude"] [["7"]]))
     "key" "bbox" 0 0 [] (by decide)⟩

end FireTimelapse
